import Mathlib

/-!
Verification of the bio2bel_mirtarbase ingestion and enrichment pipelines.

The Python sources (`manager.py`, `enrich.py`, `__init__.py`) are shallowly
embedded: pandas rows become a `Row` structure, the SQLAlchemy session
becomes explicit state passing through `PopState`, exceptions become
`Except`, and the in-memory deduplication dictionaries become association
lists whose lookup mirrors Python `dict.get`.  The ORM models module is not
part of the sources; the few members of it that the sources call
(`Mirna.as_bel`, `Mirna.serialize_to_bel`, `Evidence.add_to_graph`, the
`MIRBASE` constant, the singular `Interaction.evidence` accessor) are
modelled from the specification and marked as such in their doc comments.
-/

/-- Association-list lookup, mirroring Python `dict.get` over the staged
deduplication caches (later inserts are consed at the front, so lookup sees
the most recent binding first, matching dict overwrite semantics). -/
def alookup {α β : Type} [DecidableEq α] : List (α × β) → α → Option β
  | [], _ => none
  | p :: ps, k => if p.1 = k then some p.2 else alookup ps k

/-- Python truthiness of an optional string: `None` and the empty string are
falsy, every other string is truthy. -/
def truthy : Option String → Bool
  | none => false
  | some s => !s.isEmpty

/-- Python `str.lower` restricted to ASCII, as applied to namespace strings;
written structurally so that concrete evaluation reduces. -/
def String.lower (s : String) : String :=
  String.mk (s.data.map (fun c => if 65 ≤ c.toNat ∧ c.toNat ≤ 90 then Char.ofNat (c.toNat + 32) else c))

/-- pybel constant `RNA` (node function marker). -/
def RNA : String := "RNA"

/-- pybel constant `MIRNA` (node function marker). -/
def MIRNA : String := "MicroRNA"

/-- pybel constant `DIRECTLY_DECREASES` (edge relation). -/
def DIRECTLY_DECREASES : String := "directlyDecreases"

/-- Modelled from the spec: the `MIRBASE` namespace keyword constant lives in
the models module, which is not among the sources; only its use as a
namespace-pattern key is relevant. -/
def MIRBASE : String := "mirbase"

/-- A record of the external gene-authority registry
(`bio2bel_hgnc.models.HGNC`): an optional numeric gene identifier issued by
the first authority, and the symbol/identifier issued by the second. -/
structure HGNC where
  entrez : Option String
  symbol : String
  identifier : Nat
deriving DecidableEq

/-- `Species` entity: a name, unique per population run. -/
structure Species where
  name : String
deriving DecidableEq

/-- `Mirna` entity: a name (unique per run) and its owning species. -/
structure Mirna where
  name : String
  species : Species
deriving DecidableEq

/-- `Target` entity: numeric gene identifier (stringified), owning species,
display gene symbol, and the optional HGNC cross-reference pair. -/
structure Target where
  entrez_id : String
  species : Species
  name : String
  hgnc_symbol : Option String
  hgnc_id : Option String
deriving DecidableEq

/-- `Interaction` entity: source-assigned interaction identifier and the two
owned entity references, held by object reference as in the ORM. -/
structure Interaction where
  mirtarbase_id : String
  mirna : Mirna
  target : Target
deriving DecidableEq

/-- `Evidence` entity: experiment text, support-call text, literature
reference, and the owning interaction held by object reference. -/
structure Evidence where
  experiment : String
  support : String
  reference : Nat
  interaction : Interaction
deriving DecidableEq

/-- The committed relational store: one list per entity kind. -/
structure Store where
  species : List Species
  mirnas : List Mirna
  targets : List Target
  interactions : List Interaction
  evidences : List Evidence
deriving DecidableEq

/-- A source row of the miRTarBase table, in the positional order consumed by
`Manager.populate` (the dataframe index is irrelevant to the logic and
omitted).  The numeric gene id arrives as a raw string still to be coerced. -/
structure Row where
  mirtarbase_id : String
  mirna_name : String
  mirna_species : String
  gene_name : String
  entrez_id : String
  target_species : String
  exp : String
  sup_type : String
  pubmed : Nat
deriving DecidableEq

/-- `_build_entrez_map`: dict comprehension over the registry keeping entries
whose `entrez` field is truthy, keyed by it.  Consing preserves dict
overwrite semantics under `alookup`. -/
def _build_entrez_map (hgnc_models : List HGNC) : List (String × HGNC) :=
  hgnc_models.foldl
    (fun emap m => if truthy m.entrez then (m.entrez.getD "", m) :: emap else emap) []

/-- The in-memory deduplication caches of one `populate` run plus the staged
(not yet committed) evidence inserts. -/
structure PopState where
  species_set : List (String × Species)
  name_mirna : List (String × Mirna)
  target_set : List (String × Target)
  interaction_set : List ((String × String) × Interaction)
  evidences : List Evidence
deriving DecidableEq

/-- The empty caches at the start of a `populate` run. -/
def initPopState : PopState :=
  { species_set := [], name_mirna := [], target_set := [], interaction_set := [], evidences := [] }

/-- `species_set` resolution in `populate`: reuse the cached species for this
name, otherwise create it and cache it. -/
def resolveSpecies (st : PopState) (sname : String) : Species × PopState :=
  match alookup st.species_set sname with
  | some s => (s, st)
  | none =>
    let s : Species := { name := sname }
    (s, { st with species_set := (sname, s) :: st.species_set })

/-- `name_mirna` resolution in `populate`: reuse the cached miRNA for this
name, otherwise resolve its species, create the miRNA and cache it. -/
def resolveMirna (st : PopState) (r : Row) : Mirna × PopState :=
  match alookup st.name_mirna r.mirna_name with
  | some m => (m, st)
  | none =>
    let sp := resolveSpecies st r.mirna_species
    let m : Mirna := { name := r.mirna_name, species := sp.1 }
    (m, { sp.2 with name_mirna := (r.mirna_name, m) :: sp.2.name_mirna })

/-- `target_set` resolution in `populate`: reuse the cached target for this
numeric gene id, otherwise resolve its species, create the target with the
row's gene symbol as display name, populate both HGNC fields when the
cross-reference map has an entry for the id, and cache it. -/
def resolveTarget (emap : List (String × HGNC)) (st : PopState) (r : Row)
    (entrez_id : String) : Target × PopState :=
  match alookup st.target_set entrez_id with
  | some t => (t, st)
  | none =>
    let sp := resolveSpecies st r.target_species
    let t : Target :=
      match alookup emap entrez_id with
      | some g_first =>
        { entrez_id := entrez_id, species := sp.1, name := r.gene_name,
          hgnc_symbol := some g_first.symbol, hgnc_id := some (toString g_first.identifier) }
      | none =>
        { entrez_id := entrez_id, species := sp.1, name := r.gene_name,
          hgnc_symbol := none, hgnc_id := none }
    (t, { sp.2 with target_set := (entrez_id, t) :: sp.2.target_set })

/-- Digit accumulation for `pyint`: fails on any non-digit character. -/
def digitsToNat (ds : List Char) : Option Nat :=
  if ds.isEmpty then none
  else ds.foldlM (fun acc c => if c.isDigit then some (10 * acc + (c.toNat - 48)) else none) 0

/-- Python `int` applied to the raw numeric-gene-id string: an optional sign
followed by decimal digits; anything else raises `ValueError`.  Written
structurally so that concrete evaluation reduces. -/
def pyint (s : String) : Option Int :=
  match s.data with
  | [] => none
  | c :: ds =>
    if c = Char.ofNat 45 then (digitsToNat ds).map (fun n => -(n : Int))
    else if c = Char.ofNat 43 then (digitsToNat ds).map (fun n => (n : Int))
    else (digitsToNat (c :: ds)).map (fun n => (n : Int))

/-- One iteration of the `populate` row loop: coerce the numeric gene id
(`str(int(entrez_id))`, fatal on failure), resolve or create the interaction
under the `(mirna_name, entrez_id)` key, and always stage one new evidence
attached to the resolved interaction. -/
def popStep (emap : List (String × HGNC)) (st : PopState) (r : Row) :
    Except Unit PopState :=
  match pyint r.entrez_id with
  | none => Except.error ()
  | some n =>
    let entrez_id := toString n
    let interaction_key := (r.mirna_name, entrez_id)
    match alookup st.interaction_set interaction_key with
    | some interaction =>
      Except.ok { st with evidences := st.evidences ++
        [{ experiment := r.exp, support := r.sup_type, reference := r.pubmed,
           interaction := interaction }] }
    | none =>
      let mr := resolveMirna st r
      let tr := resolveTarget emap mr.2 r entrez_id
      let interaction : Interaction :=
        { mirtarbase_id := r.mirtarbase_id, mirna := mr.1, target := tr.1 }
      let st2 := { tr.2 with
        interaction_set := (interaction_key, interaction) :: tr.2.interaction_set }
      Except.ok { st2 with evidences := st2.evidences ++
        [{ experiment := r.exp, support := r.sup_type, reference := r.pubmed,
           interaction := interaction }] }

/-- The whole row loop of `populate`, threading the staged state; the first
non-coercible numeric gene id aborts the run. -/
def popRun (hgnc_models : List HGNC) (rows : List Row) : Except Unit PopState :=
  rows.foldlM (popStep (_build_entrez_map hgnc_models)) initPopState

/-- The end-of-run commit: every staged entity of the run becomes visible at
once, appended to the pre-existing store contents. -/
def commitTo (db : Store) (st : PopState) : Store :=
  { species := db.species ++ st.species_set.map Prod.snd
  , mirnas := db.mirnas ++ st.name_mirna.map Prod.snd
  , targets := db.targets ++ st.target_set.map Prod.snd
  , interactions := db.interactions ++ st.interaction_set.map Prod.snd
  , evidences := db.evidences ++ st.evidences }

/-- The empty store. -/
def emptyStore : Store :=
  { species := [], mirnas := [], targets := [], interactions := [], evidences := [] }

namespace Manager

/-- `Manager.populate` against a fresh store: run the row loop and commit. -/
def populate (hgnc_models : List HGNC) (rows : List Row) : Except Unit Store :=
  (popRun hgnc_models rows).map (commitTo emptyStore)

/-- `Manager.populate` observed through the backing store: on success the
single end-of-run commit makes the staged batch visible; an exception raised
before the commit leaves the store exactly as it was. -/
def run_populate (hgnc_models : List HGNC) (rows : List Row) (db : Store) : Store :=
  match popRun hgnc_models rows with
  | Except.ok st => commitTo db st
  | Except.error _ => db

end Manager

/-- A BEL graph node term: either an opaque pre-existing graph node, the BEL
term of a Mirna, or the BEL term of a Target. -/
inductive GNode where
  | node (id : Nat)
  | mirnaBel (name : String)
  | targetBel (entrez_id : String)
deriving DecidableEq

/-- The attribute map of a graph node, with the pybel keys `FUNCTION`,
`NAMESPACE`, `IDENTIFIER` and `NAME`; the latter three may be absent. -/
structure NodeData where
  function : String
  ns : Option String
  identifier : Option String
  name : Option String
deriving DecidableEq

/-- A directed, qualified BEL edge as consumed through
`graph.add_qualified_edge`: endpoints, relation, primary evidence text,
citation, and the annotation bag. -/
structure Edge where
  u : GNode
  v : GNode
  relation : String
  evidence : String
  citation : String
  annotations : List (String × String)
deriving DecidableEq

/-- A BEL graph: metadata, nodes with their attribute maps, the edge list in
insertion order, and the two namespace registries. -/
structure BELGraph where
  name : String
  version : String
  nodes : List (GNode × NodeData)
  edges : List Edge
  namespace_url : List (String × String)
  namespace_pattern : List (String × String)
deriving DecidableEq

/-- `graph.add_qualified_edge`: purely additive, appends one edge. -/
def BELGraph.add_qualified_edge (g : BELGraph) (e : Edge) : BELGraph :=
  { g with edges := g.edges ++ [e] }

/-- Modelled from the spec: `Mirna.as_bel` lives in the models module, which
is not among the sources; the spec gives a Mirna a canonical textual
representation usable as a graph-node label, determined by the miRNA. -/
def Mirna.as_bel (m : Mirna) : GNode := GNode.mirnaBel m.name

/-- Modelled from the spec: `Mirna.serialize_to_bel` is the older name used
by the module-level enrichment for the same canonical representation. -/
def Mirna.serialize_to_bel (m : Mirna) : GNode := m.as_bel

/-- The `target.interactions` relationship: the interactions whose owning
target reference is this target. -/
def interactionsOf (store : Store) (t : Target) : List Interaction :=
  store.interactions.filter (fun i => decide (i.target = t))

/-- The `interaction.evidences` relationship: the evidences whose owning
interaction reference is this interaction. -/
def evidencesOf (store : Store) (i : Interaction) : List Evidence :=
  store.evidences.filter (fun e => decide (e.interaction = i))

namespace Manager

/-- `query_target_by_hgnc_identifier`: exact-match unique-key lookup on
`hgnc_id` (the backing store keeps at most one match per key; modelled as
the first match). -/
def query_target_by_hgnc_identifier (store : Store) (hgnc_id : String) : Option Target :=
  store.targets.find? (fun t => decide (t.hgnc_id = some hgnc_id))

/-- `query_target_by_hgnc_symbol`: exact-match lookup on `hgnc_symbol`. -/
def query_target_by_hgnc_symbol (store : Store) (hgnc_symbol : String) : Option Target :=
  store.targets.find? (fun t => decide (t.hgnc_symbol = some hgnc_symbol))

/-- `query_target_by_entrez_id`: exact-match lookup on `entrez_id`. -/
def query_target_by_entrez_id (store : Store) (entrez_id : String) : Option Target :=
  store.targets.find? (fun t => decide (t.entrez_id = entrez_id))

/-- `Manager._enrich_rna_handle_hgnc`: prefer the truthy identifier, then the
truthy name, otherwise raise `IndexError`. -/
def _enrich_rna_handle_hgnc (store : Store) (identifier name : Option String) :
    Except String (Option Target) :=
  if truthy identifier then
    Except.ok (query_target_by_hgnc_identifier store (identifier.getD ""))
  else if truthy name then
    Except.ok (query_target_by_hgnc_symbol store (name.getD ""))
  else Except.error "IndexError"

/-- `Manager._enrich_rna_handle_entrez`: prefer the truthy identifier, else
treat the truthy name as a numeric identifier string, otherwise raise
`IndexError`. -/
def _enrich_rna_handle_entrez (store : Store) (identifier name : Option String) :
    Except String (Option Target) :=
  if truthy identifier then
    Except.ok (query_target_by_entrez_id store (identifier.getD ""))
  else if truthy name then
    Except.ok (query_target_by_entrez_id store (name.getD ""))
  else Except.error "IndexError"

/-- The edge built by the inner loop of `Manager.enrich_rnas` for one
evidence of one interaction, directed at the originating graph node. -/
def mtiEdge (node : GNode) (i : Interaction) (ev : Evidence) : Edge :=
  { u := i.mirna.as_bel
  , v := node
  , relation := DIRECTLY_DECREASES
  , evidence := ev.support
  , citation := toString ev.reference
  , annotations := [("Experiment", ev.experiment), ("SupportType", ev.support)] }

/-- The namespace dispatch of `Manager.enrich_rnas` for one node: non-RNA
nodes and nodes without a namespace resolve to nothing; authority `hgnc`
(case-insensitive) goes to the HGNC handler; an authority in the recognized
set `ve` of numeric-gene-identifier namespaces goes to the entrez handler;
every other authority is logged and skipped. -/
def rnaNodeTarget (ve : List String) (store : Store) (data : NodeData) :
    Except String (Option Target) :=
  if data.function ≠ RNA then Except.ok none
  else
    match data.ns with
    | none => Except.ok none
    | some nspace =>
      if nspace.lower = "hgnc" then
        _enrich_rna_handle_hgnc store data.identifier data.name
      else if nspace.lower ∈ ve then
        _enrich_rna_handle_entrez store data.identifier data.name
      else Except.ok none

/-- The double loop of `Manager.enrich_rnas` over a resolved target: one
edge per evidence of each interaction owned by the target. -/
def addTargetEdges (store : Store) (node : GNode) (target : Target) (g : BELGraph) :
    BELGraph :=
  (interactionsOf store target).foldl
    (fun g1 i => (evidencesOf store i).foldl
      (fun g2 ev => g2.add_qualified_edge (mtiEdge node i ev)) g1) g

/-- Processing of one node by `Manager.enrich_rnas`: resolve, then emit the
edges when a target was found; an unresolved node is logged and skipped. -/
def enrichRnaNode (ve : List String) (store : Store) (g : BELGraph)
    (node : GNode) (data : NodeData) : Except String BELGraph :=
  match rnaNodeTarget ve store data with
  | Except.error e => Except.error e
  | Except.ok none => Except.ok g
  | Except.ok (some target) => Except.ok (addTargetEdges store node target g)

/-- `Manager.enrich_rnas`: iterate the graph nodes, threading the edge
additions; a raised `IndexError` propagates. -/
def enrich_rnas (ve : List String) (store : Store) (g : BELGraph) :
    Except String BELGraph :=
  g.nodes.foldlM (fun g1 nd => enrichRnaNode ve store g1 nd.1 nd.2) g

/-- Characterization helper: the edges that processing one node contributes
in `Manager.enrich_rnas`, as a function of the node alone. -/
def nodeDeltaEdges (ve : List String) (store : Store) (node : GNode) (data : NodeData) :
    List Edge :=
  match rnaNodeTarget ve store data with
  | Except.ok (some t) =>
    (interactionsOf store t).flatMap
      (fun i => (evidencesOf store i).map (mtiEdge node i))
  | _ => []

/-- The first loop of `Manager.enrich_mirnas`: walk the nodes collecting the
names of mirtarbase-authority miRNA nodes.  Reaching any mirtarbase-authority
node raises `IndexError` unconditionally (the name, even when present, is
added to the set only on the line before the raise, so the addition is
discarded); recognized-but-unimplemented authorities and unknown authorities
are both logged and skipped. -/
def collectMirtarbaseNames (ve : List String) (nodes : List (GNode × NodeData)) :
    Except String (List String) :=
  nodes.foldlM
    (fun acc nd =>
      if nd.2.function ≠ MIRNA then Except.ok acc
      else
        match nd.2.ns with
        | none => Except.ok acc
        | some nspace =>
          if nspace.lower = "mirtarbase" then
            let _acc1 := match nd.2.name with
              | some n => acc ++ [n]
              | none => acc
            Except.error "no usable identifier"
          else if nspace.lower ∈ (["mirbase", "hgnc"] ++ ve) then Except.ok acc
          else Except.ok acc) []

/-- The join query of `Manager.enrich_mirnas`: every evidence whose owning
interaction belongs to a miRNA whose name is in the collected set. -/
def mirnaInteractionEvidenceQuery (store : Store) (names : List String) : List Evidence :=
  store.evidences.filter (fun ev => names.contains ev.interaction.mirna.name)

end Manager

/-- Modelled from the spec: `Evidence.add_to_graph` lives in the models
module, which is not among the sources; sections 4.4 and 4.5 give its
edge-construction contract — one directed inhibition edge from the owning
interaction's miRNA term to the target's term, with relation
directly-decreases, evidence text and SupportType from the support field,
citation the stringified reference, and Experiment from the experiment
field.  This is the edge it appends. -/
def Evidence.belEdge (ev : Evidence) : Edge :=
  { u := ev.interaction.mirna.as_bel
  , v := GNode.targetBel ev.interaction.target.entrez_id
  , relation := DIRECTLY_DECREASES
  , evidence := ev.support
  , citation := toString ev.reference
  , annotations := [("Experiment", ev.experiment), ("SupportType", ev.support)] }

/-- Modelled from the spec: `Evidence.add_to_graph` appends the evidence's
edge to the graph. -/
def Evidence.add_to_graph (ev : Evidence) (g : BELGraph) : BELGraph :=
  g.add_qualified_edge ev.belEdge

namespace Manager

/-- `Manager.enrich_mirnas`: collect mirtarbase-authority names (raising on
any such node), return the graph untouched when none were collected, else
add the edge of every evidence reached by the join query. -/
def enrich_mirnas (ve : List String) (store : Store) (g : BELGraph) :
    Except String BELGraph :=
  match collectMirtarbaseNames ve g.nodes with
  | Except.error e => Except.error e
  | Except.ok names =>
    if names.isEmpty then Except.ok g
    else Except.ok ((mirnaInteractionEvidenceQuery store names).foldl
      (fun g1 ev => ev.add_to_graph g1) g)

/-- `Manager.list_evidences`: the stored evidences in natural order. -/
def list_evidences (store : Store) : List Evidence := store.evidences

/-- `Manager.to_bel`: construct a fresh graph, register the HGNC and Entrez
namespace resources obtained from the two external managers (passed here as
keyword/url pairs) and the miRBase namespace pattern, then walk every stored
evidence once and add its edge. -/
def to_bel (hgnc_ns entrez_ns : String × String) (store : Store) : BELGraph :=
  let graph : BELGraph :=
    { name := "miRTarBase", version := "1.0.0", nodes := [], edges := []
    , namespace_url := [], namespace_pattern := [] }
  let graph := { graph with namespace_url := graph.namespace_url ++ [hgnc_ns] }
  let graph := { graph with namespace_url := graph.namespace_url ++ [entrez_ns] }
  let graph := { graph with namespace_pattern := graph.namespace_pattern ++ [(MIRBASE, "^.*$")] }
  (list_evidences store).foldl (fun g ev => ev.add_to_graph g) graph

end Manager

namespace Enrich

/-- Modelled from the spec: the singular `interaction.evidence` accessor used
by the module-level enrichment is not among the sources; the spec gives an
Interaction one-or-more owned Evidence records, so the singular accessor is
modelled as the first owned evidence. -/
def interactionEvidence (store : Store) (i : Interaction) : Option Evidence :=
  (evidencesOf store i).head?

/-- Processing of one node by the module-level `enrich_rnas` of `enrich.py`:
namespace strings are compared case-sensitively (`HGNC`, `EGID`, `ENTREZ`),
identifier and name are tested for presence (`in data`) rather than
truthiness, an unresolved node logs `data[NAME]` (a `KeyError` when the name
is absent), and a resolved target emits one edge per interaction using the
interaction's singular evidence. -/
def enrichRnaNodeModule (store : Store) (g : BELGraph) (node : GNode)
    (data : NodeData) : Except String BELGraph :=
  if data.function ≠ RNA then Except.ok g
  else
    match data.ns with
    | none => Except.ok g
    | some nspace =>
      let resolved : Except String (Option (Option Target)) :=
        if nspace = "HGNC" then
          match data.identifier with
          | some s => Except.ok (some (Manager.query_target_by_hgnc_identifier store s))
          | none =>
            match data.name with
            | some s => Except.ok (some (Manager.query_target_by_hgnc_symbol store s))
            | none => Except.error "IndexError"
        else if nspace = "EGID" ∨ nspace = "ENTREZ" then
          match data.identifier with
          | some s => Except.ok (some (Manager.query_target_by_entrez_id store s))
          | none =>
            match data.name with
            | some s => Except.ok (some (Manager.query_target_by_entrez_id store s))
            | none => Except.error "IndexError"
        else Except.ok none
      match resolved with
      | Except.error e => Except.error e
      | Except.ok none => Except.ok g
      | Except.ok (some none) =>
        match data.name with
        | none => Except.error "KeyError"
        | some _ => Except.ok g
      | Except.ok (some (some target)) =>
        Except.ok ((interactionsOf store target).foldl
          (fun g1 i =>
            match interactionEvidence store i with
            | some ev => g1.add_qualified_edge
                { u := i.mirna.serialize_to_bel
                , v := node
                , relation := DIRECTLY_DECREASES
                , evidence := ev.support
                , citation := toString ev.reference
                , annotations := [("Experiment", ev.experiment), ("SupportType", ev.support)] }
            | none => g1) g)

/-- The module-level `enrich_rnas` of `enrich.py`. -/
def enrich_rnas (store : Store) (g : BELGraph) : Except String BELGraph :=
  g.nodes.foldlM (fun g1 nd => enrichRnaNodeModule store g1 nd.1 nd.2) g

/-- The module-level names bound by `enrich.py`: the `logging` import, the
star import from `pybel.constants` (an external constants module, passed as
a parameter), the `Manager` import, the module logger, and the single
function definition `enrich_rnas`. -/
def moduleNames (pybel_constants : List String) : List String :=
  ["logging"] ++ pybel_constants ++ ["Manager", "log", "enrich_rnas"]

end Enrich

/-- Python `from module import a, b, ...` semantics: the import succeeds only
when every requested name is bound in the module; the first missing name
raises `ImportError`. -/
def fromImport (available requested : List String) : Except String Unit :=
  match requested.find? (fun n => !available.contains n) with
  | some n => Except.error ("ImportError: cannot import name " ++ n)
  | none => Except.ok ()

/-- The import executed by the package initializer `__init__.py`:
`from .enrich import enrich_mirnas, enrich_rnas`. -/
def packageInitImport (pybel_constants : List String) : Except String Unit :=
  fromImport (Enrich.moduleNames pybel_constants) ["enrich_mirnas", "enrich_rnas"]

/-! Concrete fixtures, drawn from the example row of the spec. -/

/-- The example target (entrez 7852, CXCR4) with its HGNC cross-reference. -/
def exTarget : Target :=
  { entrez_id := "7852", species := { name := "Homo sapiens" }, name := "CXCR4"
  , hgnc_symbol := some "CXCR4", hgnc_id := some "2561" }

/-- The example miRNA. -/
def exMirna : Mirna := { name := "mmu-miR-124-3p", species := { name := "Mus musculus" } }

/-- The example interaction. -/
def exInteraction : Interaction :=
  { mirtarbase_id := "MIRT000005", mirna := exMirna, target := exTarget }

/-- The example evidence. -/
def exEvidence : Evidence :=
  { experiment := "Reporter assay", support := "Functional MTI", reference := 18619591
  , interaction := exInteraction }

/-- A store holding exactly the example entities. -/
def exStore : Store :=
  { species := [{ name := "Homo sapiens" }, { name := "Mus musculus" }]
  , mirnas := [exMirna], targets := [exTarget]
  , interactions := [exInteraction], evidences := [exEvidence] }

/-- A concrete instance of the recognized entrez namespace set. -/
def exVe : List String := ["egid", "eg", "entrez", "ncbigene"]

/-- A graph with one RNA node whose namespace is the lowercase string
`hgnc` and whose identifier matches the example target. -/
def exGraphHgncLower : BELGraph :=
  { name := "test", version := "1.0.0"
  , nodes := [(GNode.node 0,
      { function := RNA, ns := some "hgnc", identifier := some "2561", name := some "CXCR4" })]
  , edges := [], namespace_url := [], namespace_pattern := [] }

/-- A graph with one miRNA node of authority `mirtarbase` that carries a
display name. -/
def exGraphMirtarbaseNamed : BELGraph :=
  { name := "test", version := "1.0.0"
  , nodes := [(GNode.node 0,
      { function := MIRNA, ns := some "mirtarbase", identifier := none
      , name := some "mmu-miR-124-3p" })]
  , edges := [], namespace_url := [], namespace_pattern := [] }


/-- The example source row from the spec. -/
def exRow : Row :=
  { mirtarbase_id := "MIRT000005", mirna_name := "mmu-miR-124-3p"
  , mirna_species := "Mus musculus", gene_name := "CXCR4", entrez_id := "7852"
  , target_species := "Homo sapiens", exp := "Reporter assay"
  , sup_type := "Functional MTI", pubmed := 18619591 }

/-- The example row with a numeric-gene-id field that is not
integer-coercible. -/
def exBadRow : Row := { exRow with entrez_id := "not-a-number" }

/-- The example registry entry giving CXCR4 its HGNC cross-reference. -/
def exHgnc : HGNC := { entrez := some "7852", symbol := "CXCR4", identifier := 2561 }

/-- A graph with one RNA node of authority `HGNC` whose identifier matches
the example target. -/
def exGraphHgnc : BELGraph :=
  { name := "test", version := "1.0.0"
  , nodes := [(GNode.node 0,
      { function := RNA, ns := some "HGNC", identifier := some "2561", name := some "CXCR4" })]
  , edges := [], namespace_url := [], namespace_pattern := [] }

/-- The interaction key computed by `populate` for a row: the miRNA name
paired with the re-stringified integer gene id, when coercion succeeds. -/
def rowKey (r : Row) : Option (String × String) :=
  (pyint r.entrez_id).map (fun n => (r.mirna_name, toString n))

/-- The number of rows of a run sharing one interaction key. -/
def rowsWithKey (rows : List Row) (k : String × String) : Nat :=
  rows.countP (fun r => decide (rowKey r = some k))

/-- The first row of a run establishing one interaction key. -/
def firstWithKey (rows : List Row) (k : String × String) : Option Row :=
  rows.find? (fun r => decide (rowKey r = some k))

/-- The interaction key realized by a stored interaction. -/
def interactionKeyOf (i : Interaction) : String × String :=
  (i.mirna.name, i.target.entrez_id)

/-- The HGNC cross-reference discipline of a target with respect to the
cross-reference map: both fields taken from the map entry when one exists
for the target's gene id, both absent otherwise. -/
def targetHgncOk (emap : List (String × HGNC)) (t : Target) : Prop :=
  (∀ g, alookup emap t.entrez_id = some g →
    t.hgnc_symbol = some g.symbol ∧ t.hgnc_id = some (toString g.identifier)) ∧
  (alookup emap t.entrez_id = none → t.hgnc_symbol = none ∧ t.hgnc_id = none)

/-- The `populate` loop invariant over the staged state after processing a
prefix of the rows: per-key interaction counts, per-entry key and
first-row-identifier discipline, per-key evidence counts, the target
cross-reference discipline, and the miRNA cache key discipline. -/
def PopInv (emap : List (String × HGNC)) (processed : List Row) (st : PopState) : Prop :=
  (∀ k, st.interaction_set.countP (fun p => decide (p.1 = k)) =
      if 0 < rowsWithKey processed k then 1 else 0) ∧
  (∀ p ∈ st.interaction_set,
      p.2.mirna.name = p.1.1 ∧ p.2.target.entrez_id = p.1.2 ∧
      ∃ r, firstWithKey processed p.1 = some r ∧ p.2.mirtarbase_id = r.mirtarbase_id) ∧
  (∀ k, st.evidences.countP (fun e => decide (interactionKeyOf e.interaction = k)) =
      rowsWithKey processed k) ∧
  (∀ p ∈ st.target_set, p.2.entrez_id = p.1 ∧ targetHgncOk emap p.2) ∧
  (∀ p ∈ st.name_mirna, p.2.name = p.1)

/-! Theorems. -/

/-- C10: the package initializer imports both `enrich_mirnas` and
`enrich_rnas` from the enrich module, but that module binds only
`enrich_rnas`, so importing the top-level package raises `ImportError` in
every environment whose `pybel.constants` does not itself bind the missing
name. -/
theorem package_init_import_fails (pybel_constants : List String)
    (h : "enrich_mirnas" ∉ pybel_constants) :
    "enrich_rnas" ∈ Enrich.moduleNames pybel_constants ∧
    "enrich_mirnas" ∉ Enrich.moduleNames pybel_constants ∧
    packageInitImport pybel_constants =
      Except.error "ImportError: cannot import name enrich_mirnas" := by
  have hmem : "enrich_mirnas" ∉ Enrich.moduleNames pybel_constants := by
    simp [Enrich.moduleNames, h]
  refine ⟨by simp [Enrich.moduleNames], hmem, ?_⟩
  have hd : decide ("enrich_mirnas" ∈ Enrich.moduleNames pybel_constants) = false :=
    decide_eq_false hmem
  simp [packageInitImport, fromImport, List.find?, hd]

/-- C10 witness: the import failure at a concrete `pybel.constants`
environment. -/
theorem package_init_import_fails_witness :
    "enrich_rnas" ∈ Enrich.moduleNames ["FUNCTION", "RNA", "NAMESPACE"] ∧
    "enrich_mirnas" ∉ Enrich.moduleNames ["FUNCTION", "RNA", "NAMESPACE"] ∧
    packageInitImport ["FUNCTION", "RNA", "NAMESPACE"] =
      Except.error "ImportError: cannot import name enrich_mirnas" :=
  package_init_import_fails ["FUNCTION", "RNA", "NAMESPACE"] (by decide)

/-- C3: evaluation of `Manager.enrich_mirnas` at a graph whose single miRNA
node has authority `mirtarbase` and carries a display name: the raise is
unconditional, so even this node faults, although its name was added to the
collection set on the preceding line and the query over the collected names
is unreachable whenever a mirtarbase-authority node exists. -/
theorem enrich_mirnas_raises_despite_name :
    Manager.enrich_mirnas exVe exStore exGraphMirtarbaseNamed =
      Except.error "no usable identifier" := by
  rfl


/-- C9 counterexample: at a store holding the example interaction and a graph
whose single RNA node has the lowercase namespace string `hgnc`, the Manager
method matches the namespace case-insensitively and adds one edge, while the
module-level function of `enrich.py` compares against the exact string
`HGNC`, fails to match, and adds none — the two implementations do not add
the same multiset of edges. -/
theorem enrich_rnas_module_manager_differ :
    (Manager.enrich_rnas exVe exStore exGraphHgncLower).map (fun g => g.edges.length) =
      Except.ok 1 ∧
    (Enrich.enrich_rnas exStore exGraphHgncLower).map (fun g => g.edges.length) =
      Except.ok 0 := by
  exact ⟨by rfl, by rfl⟩

/-- Helper for C5: a row whose numeric-gene-id field fails integer coercion
aborts the whole row loop from any intermediate staged state. -/
theorem popFold_error_of_bad_row (emap : List (String × HGNC)) :
    ∀ (rows : List Row) (st : PopState), (∃ r ∈ rows, pyint r.entrez_id = none) →
      rows.foldlM (popStep emap) st = Except.error () := by
  intro rows
  induction rows with
  | nil => intro st h; simp at h
  | cons r rest ih =>
    intro st h
    rw [List.foldlM_cons]
    rcases h with ⟨r1, hr1, hbad⟩
    rcases List.mem_cons.mp hr1 with heq | hmem
    · subst heq
      simp only [popStep, hbad]
      rfl
    · cases hfirst : pyint r.entrez_id with
      | none =>
        simp only [popStep, hfirst]
        rfl
      | some n =>
        have hok : ∃ st1, popStep emap st r = Except.ok st1 := by
          simp only [popStep, hfirst]
          cases alookup st.interaction_set (r.mirna_name, toString n) <;> exact ⟨_, rfl⟩
        rcases hok with ⟨st1, hst1⟩
        rw [hst1]
        simpa using ih st1 ⟨r1, hmem, hbad⟩

/-- C5: a run of `Manager.populate` containing any row whose numeric-gene-id
field is not integer-coercible aborts with a fault before the single
end-of-run commit, and the backing store is left exactly unchanged — no
entity of any row of the run becomes visible, and no skip-and-continue
happens. -/
theorem populate_nonint_gene_id_fatal (hgnc_models : List HGNC) (rows : List Row)
    (db : Store) (h : ∃ r ∈ rows, pyint r.entrez_id = none) :
    Manager.populate hgnc_models rows = Except.error () ∧
    Manager.run_populate hgnc_models rows db = db := by
  have hrun : popRun hgnc_models rows = Except.error () :=
    popFold_error_of_bad_row (_build_entrez_map hgnc_models) rows initPopState h
  constructor
  · unfold Manager.populate
    rw [hrun]
    rfl
  · unfold Manager.run_populate
    rw [hrun]

/-- C5 witness: a concrete two-row run whose second row has the gene id
`not-a-number` errors and leaves the concrete store untouched. -/
theorem populate_nonint_gene_id_fatal_witness :
    Manager.populate [exHgnc] [exRow, exBadRow] = Except.error () ∧
    Manager.run_populate [exHgnc] [exRow, exBadRow] exStore = exStore :=
  populate_nonint_gene_id_fatal [exHgnc] [exRow, exBadRow] exStore
    ⟨exBadRow, by simp, by rfl⟩

/-- Helper: a present, nonempty optional string is truthy. -/
theorem truthy_some_of_ne (s : String) (h : s ≠ "") : truthy (some s) = true := by
  have hb : s.isEmpty = false := by
    rcases hb : s.isEmpty with _ | _
    · rfl
    · exact absurd ((String.isEmpty_iff s).mp hb) h
  simp [truthy, hb]

/-- C4: for an RNA node whose naming authority lowercases to `hgnc`,
`Manager.enrich_rnas` dispatches to the HGNC handler, which resolves the
target by exact-match lookup on `hgnc_id` when the node carries a (truthy)
identifier, else by exact-match lookup on `hgnc_symbol` when it carries a
(truthy) symbol, and raises an indexing fault when it carries neither. -/
theorem enrich_rnas_hgnc_dispatch (ve : List String) (store : Store) (d : NodeData)
    (nspace : String) (hfn : d.function = RNA) (hns : d.ns = some nspace)
    (hlow : nspace.lower = "hgnc") :
    Manager.rnaNodeTarget ve store d =
      Manager._enrich_rna_handle_hgnc store d.identifier d.name ∧
    (∀ s, d.identifier = some s → s ≠ "" →
      Manager._enrich_rna_handle_hgnc store d.identifier d.name =
        Except.ok (Manager.query_target_by_hgnc_identifier store s) ∧
      (∀ t, Manager.query_target_by_hgnc_identifier store s = some t →
        t.hgnc_id = some s) ∧
      (Manager.query_target_by_hgnc_identifier store s = none →
        ∀ t ∈ store.targets, t.hgnc_id ≠ some s)) ∧
    (truthy d.identifier = false → ∀ s, d.name = some s → s ≠ "" →
      Manager._enrich_rna_handle_hgnc store d.identifier d.name =
        Except.ok (Manager.query_target_by_hgnc_symbol store s) ∧
      (∀ t, Manager.query_target_by_hgnc_symbol store s = some t →
        t.hgnc_symbol = some s)) ∧
    (truthy d.identifier = false → truthy d.name = false →
      Manager._enrich_rna_handle_hgnc store d.identifier d.name =
        Except.error "IndexError") := by
  refine ⟨?_, ?_, ?_, ?_⟩
  · simp [Manager.rnaNodeTarget, hfn, hns, hlow, RNA]
  · intro s hs hne
    refine ⟨?_, ?_, ?_⟩
    · simp [Manager._enrich_rna_handle_hgnc, hs, truthy_some_of_ne s hne]
    · intro t ht
      have := List.find?_some ht
      exact of_decide_eq_true this
    · intro hnone t htmem
      have := List.find?_eq_none.mp hnone t htmem
      simpa using this
  · intro hid s hs hne
    refine ⟨?_, ?_⟩
    · simp [Manager._enrich_rna_handle_hgnc, hid, hs, truthy_some_of_ne s hne]
    · intro t ht
      have := List.find?_some ht
      exact of_decide_eq_true this
  · intro hid hname
    simp [Manager._enrich_rna_handle_hgnc, hid, hname]

/-- C4 witness: a node with authority `HGNC` and identifier 2561 resolves the
example target by `hgnc_id`. -/
theorem enrich_rnas_hgnc_dispatch_witness :
    Manager.rnaNodeTarget exVe exStore
        { function := RNA, ns := some "HGNC", identifier := some "2561", name := none } =
      Manager._enrich_rna_handle_hgnc exStore (some "2561") none ∧
    (∀ s, (some "2561" : Option String) = some s → s ≠ "" →
      Manager._enrich_rna_handle_hgnc exStore (some "2561") none =
        Except.ok (Manager.query_target_by_hgnc_identifier exStore s) ∧
      (∀ t, Manager.query_target_by_hgnc_identifier exStore s = some t →
        t.hgnc_id = some s) ∧
      (Manager.query_target_by_hgnc_identifier exStore s = none →
        ∀ t ∈ exStore.targets, t.hgnc_id ≠ some s)) ∧
    (truthy (some "2561") = false → ∀ s, (none : Option String) = some s → s ≠ "" →
      Manager._enrich_rna_handle_hgnc exStore (some "2561") none =
        Except.ok (Manager.query_target_by_hgnc_symbol exStore s) ∧
      (∀ t, Manager.query_target_by_hgnc_symbol exStore s = some t →
        t.hgnc_symbol = some s)) ∧
    (truthy (some "2561") = false → truthy (none : Option String) = false →
      Manager._enrich_rna_handle_hgnc exStore (some "2561") none =
        Except.error "IndexError") :=
  enrich_rnas_hgnc_dispatch exVe exStore
    { function := RNA, ns := some "HGNC", identifier := some "2561", name := none }
    "HGNC" rfl rfl (by rfl)

/-- C7: for an RNA node whose naming authority lowercases into the recognized
set `ve` of numeric-gene-identifier namespaces (and not to `hgnc`, which is
tested first), `Manager.enrich_rnas` dispatches to the entrez handler, which
looks the target up by the node's (truthy) identifier when present and
otherwise treats the node's (truthy) symbol field as a numeric identifier
string; a node whose authority lowercases neither to `hgnc` nor into `ve` is
skipped without an error and without touching the graph. -/
theorem enrich_rnas_entrez_dispatch (ve : List String) (store : Store) (d : NodeData)
    (nspace : String) (hfn : d.function = RNA) (hns : d.ns = some nspace) :
    (nspace.lower ≠ "hgnc" → nspace.lower ∈ ve →
      Manager.rnaNodeTarget ve store d =
        Manager._enrich_rna_handle_entrez store d.identifier d.name) ∧
    (∀ s, d.identifier = some s → s ≠ "" →
      Manager._enrich_rna_handle_entrez store d.identifier d.name =
        Except.ok (Manager.query_target_by_entrez_id store s) ∧
      (∀ t, Manager.query_target_by_entrez_id store s = some t →
        t.entrez_id = s)) ∧
    (truthy d.identifier = false → ∀ s, d.name = some s → s ≠ "" →
      Manager._enrich_rna_handle_entrez store d.identifier d.name =
        Except.ok (Manager.query_target_by_entrez_id store s)) ∧
    (nspace.lower ≠ "hgnc" → nspace.lower ∉ ve →
      Manager.rnaNodeTarget ve store d = Except.ok none ∧
      ∀ g node, Manager.enrichRnaNode ve store g node d = Except.ok g) := by
  refine ⟨?_, ?_, ?_, ?_⟩
  · intro hnh hin
    simp [Manager.rnaNodeTarget, hfn, hns, hnh, hin, RNA]
  · intro s hs hne
    refine ⟨?_, ?_⟩
    · simp [Manager._enrich_rna_handle_entrez, hs, truthy_some_of_ne s hne]
    · intro t ht
      have := List.find?_some ht
      exact of_decide_eq_true this
  · intro hid s hs hne
    simp [Manager._enrich_rna_handle_entrez, hid, hs, truthy_some_of_ne s hne]
  · intro hnh hnin
    have hres : Manager.rnaNodeTarget ve store d = Except.ok none := by
      simp [Manager.rnaNodeTarget, hfn, hns, hnh, hnin, RNA]
    exact ⟨hres, fun g node => by simp [Manager.enrichRnaNode, hres]⟩

/-- C7 witness: a node with authority `ENTREZ` and identifier 7852 resolves
the example target by `entrez_id`. -/
theorem enrich_rnas_entrez_dispatch_witness :
    ((("ENTREZ" : String).lower ≠ "hgnc") → ("ENTREZ" : String).lower ∈ exVe →
      Manager.rnaNodeTarget exVe exStore
          { function := RNA, ns := some "ENTREZ", identifier := some "7852", name := none } =
        Manager._enrich_rna_handle_entrez exStore (some "7852") none) ∧
    (∀ s, (some "7852" : Option String) = some s → s ≠ "" →
      Manager._enrich_rna_handle_entrez exStore (some "7852") none =
        Except.ok (Manager.query_target_by_entrez_id exStore s) ∧
      (∀ t, Manager.query_target_by_entrez_id exStore s = some t →
        t.entrez_id = s)) ∧
    (truthy (some "7852") = false → ∀ s, (none : Option String) = some s → s ≠ "" →
      Manager._enrich_rna_handle_entrez exStore (some "7852") none =
        Except.ok (Manager.query_target_by_entrez_id exStore s)) ∧
    ((("ENTREZ" : String).lower ≠ "hgnc") → ("ENTREZ" : String).lower ∉ exVe →
      Manager.rnaNodeTarget exVe exStore
          { function := RNA, ns := some "ENTREZ", identifier := some "7852", name := none } =
        Except.ok none ∧
      ∀ g node, Manager.enrichRnaNode exVe exStore g node
          { function := RNA, ns := some "ENTREZ", identifier := some "7852", name := none } =
        Except.ok g) :=
  enrich_rnas_entrez_dispatch exVe exStore
    { function := RNA, ns := some "ENTREZ", identifier := some "7852", name := none }
    "ENTREZ" rfl rfl

/-- Helper: folding `Evidence.add_to_graph` over an evidence list appends
exactly one edge per evidence, in traversal order, and changes nothing else
of the graph. -/
theorem foldl_add_to_graph (evs : List Evidence) (g : BELGraph) :
    evs.foldl (fun g1 ev => ev.add_to_graph g1) g =
      { g with edges := g.edges ++ evs.map Evidence.belEdge } := by
  induction evs generalizing g with
  | nil => simp
  | cons ev rest ih =>
    simp only [List.foldl_cons, List.map_cons]
    rw [show ev.add_to_graph g = { g with edges := g.edges ++ [ev.belEdge] } from rfl]
    rw [ih]
    simp

/-- C8: `Manager.to_bel` builds a fresh graph whose namespace registry holds
exactly the two gene-authority resources (plus the miRBase pattern), whose
edge list is exactly one edge per stored evidence in a single traversal of
the evidence list, each edge fully determined by its evidence via
`Evidence.belEdge`; permuting the traversal order permutes the edge list and
changes nothing else, so the graph content is traversal-order independent. -/
theorem to_bel_one_edge_per_evidence (hgnc_ns entrez_ns : String × String)
    (store : Store) :
    (Manager.to_bel hgnc_ns entrez_ns store).edges =
      store.evidences.map Evidence.belEdge ∧
    (Manager.to_bel hgnc_ns entrez_ns store).edges.length =
      store.evidences.length ∧
    (Manager.to_bel hgnc_ns entrez_ns store).namespace_url = [hgnc_ns, entrez_ns] ∧
    (Manager.to_bel hgnc_ns entrez_ns store).namespace_pattern =
      [(MIRBASE, "^.*$")] ∧
    (∀ evs2 : List Evidence, store.evidences.Perm evs2 →
      (Manager.to_bel hgnc_ns entrez_ns { store with evidences := evs2 }).edges.Perm
          (Manager.to_bel hgnc_ns entrez_ns store).edges ∧
      (Manager.to_bel hgnc_ns entrez_ns { store with evidences := evs2 }).namespace_url =
          (Manager.to_bel hgnc_ns entrez_ns store).namespace_url ∧
      (Manager.to_bel hgnc_ns entrez_ns store).nodes =
          (Manager.to_bel hgnc_ns entrez_ns { store with evidences := evs2 }).nodes) := by
  have hresult : ∀ s : Store, Manager.to_bel hgnc_ns entrez_ns s =
      { name := "miRTarBase", version := "1.0.0", nodes := []
      , edges := s.evidences.map Evidence.belEdge
      , namespace_url := [hgnc_ns, entrez_ns]
      , namespace_pattern := [(MIRBASE, "^.*$")] } := by
    intro s
    unfold Manager.to_bel
    rw [foldl_add_to_graph]
    rfl
  refine ⟨by rw [hresult store], by rw [hresult store]; exact List.length_map _ _, ?_, ?_, ?_⟩
  · rw [hresult store]
  · rw [hresult store]
  · intro evs2 hperm
    refine ⟨?_, ?_, ?_⟩
    · rw [hresult store, hresult { store with evidences := evs2 }]
      exact (hperm.map Evidence.belEdge).symm
    · rw [hresult store, hresult { store with evidences := evs2 }]
    · rw [hresult store, hresult { store with evidences := evs2 }]

/-- C8 witness: the serialization of the concrete example store. -/
theorem to_bel_one_edge_per_evidence_witness :
    (Manager.to_bel ("hgnc", "url1") ("entrez", "url2") exStore).edges =
      exStore.evidences.map Evidence.belEdge ∧
    (Manager.to_bel ("hgnc", "url1") ("entrez", "url2") exStore).edges.length =
      exStore.evidences.length ∧
    (Manager.to_bel ("hgnc", "url1") ("entrez", "url2") exStore).namespace_url =
      [("hgnc", "url1"), ("entrez", "url2")] ∧
    (Manager.to_bel ("hgnc", "url1") ("entrez", "url2") exStore).namespace_pattern =
      [(MIRBASE, "^.*$")] ∧
    (∀ evs2 : List Evidence, exStore.evidences.Perm evs2 →
      (Manager.to_bel ("hgnc", "url1") ("entrez", "url2")
          { exStore with evidences := evs2 }).edges.Perm
          (Manager.to_bel ("hgnc", "url1") ("entrez", "url2") exStore).edges ∧
      (Manager.to_bel ("hgnc", "url1") ("entrez", "url2")
          { exStore with evidences := evs2 }).namespace_url =
          (Manager.to_bel ("hgnc", "url1") ("entrez", "url2") exStore).namespace_url ∧
      (Manager.to_bel ("hgnc", "url1") ("entrez", "url2") exStore).nodes =
          (Manager.to_bel ("hgnc", "url1") ("entrez", "url2")
            { exStore with evidences := evs2 }).nodes) :=
  to_bel_one_edge_per_evidence ("hgnc", "url1") ("entrez", "url2") exStore

/-- Helper: folding `add_qualified_edge` over any list appends the mapped
edges in order and changes nothing else of the graph. -/
theorem foldl_add_qualified_edge {α : Type} (l : List α) (f : α → Edge) (g : BELGraph) :
    l.foldl (fun g1 a => g1.add_qualified_edge (f a)) g =
      { g with edges := g.edges ++ l.map f } := by
  induction l generalizing g with
  | nil => simp
  | cons a rest ih =>
    simp only [List.foldl_cons, List.map_cons]
    rw [show g.add_qualified_edge (f a) = { g with edges := g.edges ++ [f a] } from rfl, ih]
    simp

/-- Helper: the nested interaction/evidence loop appends exactly the
flattened per-evidence edges. -/
theorem foldl_nested_edges (store : Store) (node : GNode) (l : List Interaction)
    (g : BELGraph) :
    l.foldl (fun g1 i => (evidencesOf store i).foldl
        (fun g2 ev => g2.add_qualified_edge (Manager.mtiEdge node i ev)) g1) g =
      { g with edges := g.edges ++
        l.flatMap (fun i => (evidencesOf store i).map (Manager.mtiEdge node i)) } := by
  induction l generalizing g with
  | nil => simp
  | cons i rest ih =>
    simp only [List.foldl_cons, List.flatMap_cons]
    rw [foldl_add_qualified_edge, ih]
    simp

/-- Helper: `addTargetEdges` appends exactly the per-evidence edges of the
resolved target. -/
theorem addTargetEdges_eq (store : Store) (node : GNode) (t : Target) (g : BELGraph) :
    Manager.addTargetEdges store node t g =
      { g with edges := g.edges ++ ((interactionsOf store t).flatMap
          (fun i => (evidencesOf store i).map (Manager.mtiEdge node i))) } := by
  unfold Manager.addTargetEdges
  exact foldl_nested_edges store node (interactionsOf store t) g

/-- Helper: a successful per-node step of `Manager.enrich_rnas` appends
exactly the node's delta edges. -/
theorem enrichRnaNode_ok_eq (ve : List String) (store : Store) (g : BELGraph)
    (node : GNode) (data : NodeData) (g2 : BELGraph)
    (h : Manager.enrichRnaNode ve store g node data = Except.ok g2) :
    g2 = { g with edges := g.edges ++ Manager.nodeDeltaEdges ve store node data } := by
  unfold Manager.enrichRnaNode at h
  unfold Manager.nodeDeltaEdges
  cases hres : Manager.rnaNodeTarget ve store data with
  | error e => rw [hres] at h; cases h
  | ok res =>
    rw [hres] at h
    cases res with
    | none =>
      injection h with h2
      subst h2
      simp
    | some t =>
      injection h with h2
      subst h2
      exact addTargetEdges_eq store node t g

/-- Helper: a successful run of the node loop of `Manager.enrich_rnas`
appends exactly the concatenation of the per-node delta edges. -/
theorem enrich_rnas_fold_eq (ve : List String) (store : Store) :
    ∀ (nodes : List (GNode × NodeData)) (g g2 : BELGraph),
      nodes.foldlM (fun g1 nd => Manager.enrichRnaNode ve store g1 nd.1 nd.2) g =
        Except.ok g2 →
      g2 = { g with edges := g.edges ++
        nodes.flatMap (fun nd => Manager.nodeDeltaEdges ve store nd.1 nd.2) } := by
  intro nodes
  induction nodes with
  | nil =>
    intro g g2 h
    injection h with h2
    subst h2
    simp
  | cons nd rest ih =>
    intro g g2 h
    rw [List.foldlM_cons] at h
    cases hstep : Manager.enrichRnaNode ve store g nd.1 nd.2 with
    | error e =>
      rw [hstep] at h
      cases h
    | ok g1 =>
      rw [hstep] at h
      have h2 : rest.foldlM (fun ga ndb => Manager.enrichRnaNode ve store ga ndb.1 ndb.2) g1 =
          Except.ok g2 := h
      have hg1 := enrichRnaNode_ok_eq ve store g nd.1 nd.2 g1 hstep
      have hg2 := ih g1 g2 h2
      subst hg1
      rw [hg2]
      simp [List.flatMap_cons]

/-- Helper: every edge contributed by a node is directed at that node. -/
theorem nodeDelta_dest (ve : List String) (store : Store) (n1 : GNode) (d1 : NodeData) :
    ∀ e ∈ Manager.nodeDeltaEdges ve store n1 d1, e.v = n1 := by
  intro e he
  unfold Manager.nodeDeltaEdges at he
  split at he
  · rcases List.mem_flatMap.mp he with ⟨i, _, hei⟩
    rcases List.mem_map.mp hei with ⟨ev, _, hrf⟩
    rw [← hrf]
    rfl
  · cases he

/-- Helper: the delta of entries for other nodes contributes no edge directed
at this node. -/
theorem flatMap_nodeDelta_filter_nil (ve : List String) (store : Store)
    (L : List (GNode × NodeData)) (node : GNode)
    (h : ∀ p ∈ L, p.1 ≠ node) :
    (L.flatMap (fun nd => Manager.nodeDeltaEdges ve store nd.1 nd.2)).filter
      (fun e => decide (e.v = node)) = [] := by
  induction L with
  | nil => rfl
  | cons p rest ih =>
    simp only [List.flatMap_cons, List.filter_append]
    rw [ih (fun q hq => h q (List.mem_cons_of_mem p hq)), List.append_nil]
    rw [List.filter_eq_nil_iff]
    intro e he
    have hv := nodeDelta_dest ve store p.1 p.2 e he
    simp [hv, h p (List.mem_cons_self p rest)]

/-- Helper: among the per-node deltas of a graph with distinct nodes, the
edges directed at one node are exactly that node's own delta. -/
theorem flatMap_nodeDelta_filter (ve : List String) (store : Store)
    (L : List (GNode × NodeData)) (node : GNode) (data : NodeData)
    (hnd : (L.map Prod.fst).Nodup) (hmem : (node, data) ∈ L) :
    (L.flatMap (fun nd => Manager.nodeDeltaEdges ve store nd.1 nd.2)).filter
        (fun e => decide (e.v = node)) =
      Manager.nodeDeltaEdges ve store node data := by
  induction L with
  | nil => cases hmem
  | cons p rest ih =>
    simp only [List.map_cons, List.nodup_cons] at hnd
    simp only [List.flatMap_cons, List.filter_append]
    rcases List.mem_cons.mp hmem with heq | hmem2
    · have hp : p = (node, data) := heq.symm
      subst hp
      have hnd1 : node ∉ rest.map Prod.fst := by simpa using hnd.1
      rw [flatMap_nodeDelta_filter_nil ve store rest node
        (fun q hq hqe => hnd1 (by rw [← hqe]; exact List.mem_map_of_mem Prod.fst hq)),
        List.append_nil]
      rw [List.filter_eq_self]
      intro e he
      exact decide_eq_true (nodeDelta_dest ve store node data e he)
    · have hpne : p.1 ≠ node := by
        intro hpe
        exact hnd.1 (hpe ▸ List.mem_map_of_mem Prod.fst hmem2)
      rw [ih hnd.2 hmem2]
      have : (Manager.nodeDeltaEdges ve store p.1 p.2).filter
          (fun e => decide (e.v = node)) = [] := by
        rw [List.filter_eq_nil_iff]
        intro e he
        have hv := nodeDelta_dest ve store p.1 p.2 e he
        simp [hv, hpne]
      rw [this, List.nil_append]

/-- C2: when `Manager.enrich_rnas` succeeds on a graph with distinct nodes,
then for every node resolved to a stored target, the edges directed at that
node grow by exactly the flattened per-evidence list over the target's
interactions — Σ of the per-interaction evidence counts — and every added
edge runs from the interaction's miRNA term to the originating node with
relation directly-decreases, citation the stringified evidence reference,
and annotations Experiment/SupportType from that evidence. -/
theorem enrich_rnas_completeness (ve : List String) (store : Store) (g g2 : BELGraph)
    (node : GNode) (data : NodeData) (t : Target)
    (hok : Manager.enrich_rnas ve store g = Except.ok g2)
    (hnd : (g.nodes.map Prod.fst).Nodup)
    (hmem : (node, data) ∈ g.nodes)
    (hres : Manager.rnaNodeTarget ve store data = Except.ok (some t)) :
    g2.edges.filter (fun e => decide (e.v = node)) =
      g.edges.filter (fun e => decide (e.v = node)) ++
        ((interactionsOf store t).flatMap
          (fun i => (evidencesOf store i).map (Manager.mtiEdge node i))) ∧
    ((interactionsOf store t).flatMap
        (fun i => (evidencesOf store i).map (Manager.mtiEdge node i))).length =
      ((interactionsOf store t).map (fun i => (evidencesOf store i).length)).sum ∧
    (∀ e ∈ (interactionsOf store t).flatMap
        (fun i => (evidencesOf store i).map (Manager.mtiEdge node i)),
      ∃ i ∈ interactionsOf store t, ∃ ev ∈ evidencesOf store i,
        e.u = i.mirna.as_bel ∧ e.v = node ∧ e.relation = DIRECTLY_DECREASES ∧
        e.evidence = ev.support ∧ e.citation = toString ev.reference ∧
        e.annotations = [("Experiment", ev.experiment), ("SupportType", ev.support)]) := by
  have hdelta : Manager.nodeDeltaEdges ve store node data =
      (interactionsOf store t).flatMap
        (fun i => (evidencesOf store i).map (Manager.mtiEdge node i)) := by
    unfold Manager.nodeDeltaEdges
    rw [hres]
  have hg2 := enrich_rnas_fold_eq ve store g.nodes g g2 hok
  refine ⟨?_, ?_, ?_⟩
  · rw [hg2]
    show (g.edges ++
        g.nodes.flatMap (fun nd => Manager.nodeDeltaEdges ve store nd.1 nd.2)).filter
        (fun e => decide (e.v = node)) = _
    rw [List.filter_append, flatMap_nodeDelta_filter ve store g.nodes node data hnd hmem,
      hdelta]
  · rw [List.length_flatMap]
    have hcomp : (List.length ∘ fun i => (evidencesOf store i).map (Manager.mtiEdge node i)) =
        fun i => (evidencesOf store i).length := by
      funext i
      simp [Function.comp, List.length_map]
    rw [hcomp]
  · intro e he
    rcases List.mem_flatMap.mp he with ⟨i, hi, hei⟩
    rcases List.mem_map.mp hei with ⟨ev, hev, hrf⟩
    refine ⟨i, hi, ev, hev, ?_⟩
    rw [← hrf]
    exact ⟨rfl, rfl, rfl, rfl, rfl, rfl⟩

/-- C2 witness: enriching the concrete one-node HGNC graph against the
example store adds exactly the one expected edge for that node. -/
theorem enrich_rnas_completeness_witness :
    ({ exGraphHgnc with
        edges := [Manager.mtiEdge (GNode.node 0) exInteraction exEvidence] } :
          BELGraph).edges.filter (fun e => decide (e.v = GNode.node 0)) =
      exGraphHgnc.edges.filter (fun e => decide (e.v = GNode.node 0)) ++
        ((interactionsOf exStore exTarget).flatMap
          (fun i => (evidencesOf exStore i).map (Manager.mtiEdge (GNode.node 0) i))) ∧
    ((interactionsOf exStore exTarget).flatMap
        (fun i => (evidencesOf exStore i).map (Manager.mtiEdge (GNode.node 0) i))).length =
      ((interactionsOf exStore exTarget).map
        (fun i => (evidencesOf exStore i).length)).sum ∧
    (∀ e ∈ (interactionsOf exStore exTarget).flatMap
        (fun i => (evidencesOf exStore i).map (Manager.mtiEdge (GNode.node 0) i)),
      ∃ i ∈ interactionsOf exStore exTarget, ∃ ev ∈ evidencesOf exStore i,
        e.u = i.mirna.as_bel ∧ e.v = GNode.node 0 ∧ e.relation = DIRECTLY_DECREASES ∧
        e.evidence = ev.support ∧ e.citation = toString ev.reference ∧
        e.annotations = [("Experiment", ev.experiment), ("SupportType", ev.support)]) :=
  enrich_rnas_completeness exVe exStore exGraphHgnc
    { exGraphHgnc with
        edges := [Manager.mtiEdge (GNode.node 0) exInteraction exEvidence] }
    (GNode.node 0)
    { function := RNA, ns := some "HGNC", identifier := some "2561", name := some "CXCR4" }
    exTarget (by rfl) (by decide)
    (by simp [exGraphHgnc])
    (by rfl)

/-- Helper: `alookup` misses exactly when no entry carries the key. -/
theorem alookup_eq_none_iff_countP {α β : Type} [DecidableEq α]
    (l : List (α × β)) (k : α) :
    alookup l k = none ↔ l.countP (fun p => decide (p.1 = k)) = 0 := by
  induction l with
  | nil => simp [alookup]
  | cons p ps ih =>
    simp only [alookup, List.countP_cons]
    by_cases h : p.1 = k
    · simp [h]
    · simp [h, ih]

/-- Helper: a successful `alookup` exposes a member binding. -/
theorem alookup_some_mem {α β : Type} [DecidableEq α]
    (l : List (α × β)) (k : α) (v : β) (h : alookup l k = some v) : (k, v) ∈ l := by
  induction l with
  | nil => cases h
  | cons p ps ih =>
    simp only [alookup] at h
    by_cases hp : p.1 = k
    · rw [if_pos hp] at h
      injection h with h2
      have hpv : p = (k, v) := by
        calc p = (p.1, p.2) := rfl
        _ = (k, v) := by rw [hp, h2]
      rw [← hpv]
      exact List.mem_cons_self p ps
    · rw [if_neg hp] at h
      exact List.mem_cons_of_mem p (ih h)

/-- Helper: appending one row bumps the per-key row count by its key
indicator. -/
theorem rowsWithKey_append_single (rows : List Row) (r : Row) (k : String × String) :
    rowsWithKey (rows ++ [r]) k =
      rowsWithKey rows k + (if rowKey r = some k then 1 else 0) := by
  unfold rowsWithKey
  rw [List.countP_append]
  simp [List.countP_cons]

/-- Helper: an established first row survives appending another row. -/
theorem firstWithKey_append_of_some (rows : List Row) (r row : Row) (k : String × String)
    (h : firstWithKey rows k = some row) : firstWithKey (rows ++ [r]) k = some row := by
  unfold firstWithKey at h ⊢
  rw [List.find?_append, h]
  rfl

/-- Helper: a key with no rows has no first row. -/
theorem firstWithKey_eq_none_of_count_zero (rows : List Row) (k : String × String)
    (h : rowsWithKey rows k = 0) : firstWithKey rows k = none := by
  unfold firstWithKey
  rw [List.find?_eq_none]
  intro r hr
  exact List.countP_eq_zero.mp h r hr

/-- Helper: a freshly keyed row becomes the first row of its key. -/
theorem firstWithKey_append_new (rows : List Row) (r : Row) (k : String × String)
    (hzero : rowsWithKey rows k = 0) (hkey : rowKey r = some k) :
    firstWithKey (rows ++ [r]) k = some r := by
  unfold firstWithKey
  rw [List.find?_append]
  rw [show List.find? (fun r2 => decide (rowKey r2 = some k)) rows = none from
    firstWithKey_eq_none_of_count_zero rows k hzero]
  simp [List.find?, hkey]

/-- Helper: `resolveSpecies` touches only the species cache. -/
theorem resolveSpecies_sets (st : PopState) (sname : String) :
    (resolveSpecies st sname).2.name_mirna = st.name_mirna ∧
    (resolveSpecies st sname).2.target_set = st.target_set ∧
    (resolveSpecies st sname).2.interaction_set = st.interaction_set ∧
    (resolveSpecies st sname).2.evidences = st.evidences := by
  unfold resolveSpecies
  cases alookup st.species_set sname <;> exact ⟨rfl, rfl, rfl, rfl⟩

/-- Helper: `resolveMirna` yields a miRNA carrying the row's name, keeps the
miRNA cache discipline, and touches neither targets, interactions nor
evidences. -/
theorem resolveMirna_spec (st : PopState) (r : Row)
    (hF : ∀ p ∈ st.name_mirna, p.2.name = p.1) :
    (resolveMirna st r).1.name = r.mirna_name ∧
    (∀ p ∈ (resolveMirna st r).2.name_mirna, p.2.name = p.1) ∧
    (resolveMirna st r).2.target_set = st.target_set ∧
    (resolveMirna st r).2.interaction_set = st.interaction_set ∧
    (resolveMirna st r).2.evidences = st.evidences := by
  unfold resolveMirna
  cases hm : alookup st.name_mirna r.mirna_name with
  | some m =>
    exact ⟨hF (r.mirna_name, m) (alookup_some_mem _ _ _ hm), hF, rfl, rfl, rfl⟩
  | none =>
    have hsp := resolveSpecies_sets st r.mirna_species
    refine ⟨rfl, ?_, hsp.2.1, hsp.2.2.1, hsp.2.2.2⟩
    intro p hp
    rcases List.mem_cons.mp hp with heq | hmem
    · rw [heq]
    · exact hF p (hsp.1 ▸ hmem)

/-- Helper: `resolveTarget` yields a target carrying the coerced gene id and
the cross-reference discipline, keeps the target cache discipline, and
touches neither miRNAs, interactions nor evidences. -/
theorem resolveTarget_spec (emap : List (String × HGNC)) (st : PopState) (r : Row)
    (entrez_id : String)
    (hE : ∀ p ∈ st.target_set, p.2.entrez_id = p.1 ∧ targetHgncOk emap p.2) :
    (resolveTarget emap st r entrez_id).1.entrez_id = entrez_id ∧
    targetHgncOk emap (resolveTarget emap st r entrez_id).1 ∧
    (∀ p ∈ (resolveTarget emap st r entrez_id).2.target_set,
        p.2.entrez_id = p.1 ∧ targetHgncOk emap p.2) ∧
    (resolveTarget emap st r entrez_id).2.name_mirna = st.name_mirna ∧
    (resolveTarget emap st r entrez_id).2.interaction_set = st.interaction_set ∧
    (resolveTarget emap st r entrez_id).2.evidences = st.evidences := by
  unfold resolveTarget
  cases ht : alookup st.target_set entrez_id with
  | some t =>
    have hmem := hE (entrez_id, t) (alookup_some_mem _ _ _ ht)
    exact ⟨hmem.1, hmem.2, hE, rfl, rfl, rfl⟩
  | none =>
    have hsp := resolveSpecies_sets st r.target_species
    cases he : alookup emap entrez_id with
    | some g_first =>
      have hok : targetHgncOk emap
          ({ entrez_id := entrez_id, species := (resolveSpecies st r.target_species).1,
             name := r.gene_name, hgnc_symbol := some g_first.symbol,
             hgnc_id := some (toString g_first.identifier) } : Target) := by
        constructor
        · intro g hg
          have hg2 : alookup emap entrez_id = some g := hg
          rw [he] at hg2
          injection hg2 with h3
          subst h3
          exact ⟨rfl, rfl⟩
        · intro hnone
          have h0 : alookup emap entrez_id = none := hnone
          rw [he] at h0
          cases h0
      refine ⟨rfl, hok, ?_, hsp.1, hsp.2.2.1, hsp.2.2.2⟩
      intro p hp
      rcases List.mem_cons.mp hp with heq | hmem
      · rw [heq]
        exact ⟨rfl, hok⟩
      · exact hE p (hsp.2.1 ▸ hmem)
    | none =>
      have hok : targetHgncOk emap
          ({ entrez_id := entrez_id, species := (resolveSpecies st r.target_species).1,
             name := r.gene_name, hgnc_symbol := none, hgnc_id := none } : Target) := by
        constructor
        · intro g hg
          have hg2 : alookup emap entrez_id = some g := hg
          rw [he] at hg2
          cases hg2
        · intro hnone
          exact ⟨rfl, rfl⟩
      refine ⟨rfl, hok, ?_, hsp.1, hsp.2.2.1, hsp.2.2.2⟩
      intro p hp
      rcases List.mem_cons.mp hp with heq | hmem
      · rw [heq]
        exact ⟨rfl, hok⟩
      · exact hE p (hsp.2.1 ▸ hmem)

/-- Helper: the shape of a `populate` row step when the interaction key is
already cached — only one evidence is staged. -/
theorem popStep_existing_key (emap : List (String × HGNC)) (st : PopState) (r : Row)
    (n : Int) (interaction : Interaction)
    (hn : pyint r.entrez_id = some n)
    (hi : alookup st.interaction_set (r.mirna_name, toString n) = some interaction) :
    popStep emap st r = Except.ok { st with evidences := st.evidences ++
      [{ experiment := r.exp, support := r.sup_type, reference := r.pubmed,
         interaction := interaction }] } := by
  simp only [popStep, hn, hi]

/-- Helper: the shape of a `populate` row step when the interaction key is
new — the entities are resolved, one interaction is cached under the key and
one evidence is staged. -/
theorem popStep_new_key (emap : List (String × HGNC)) (st : PopState) (r : Row) (n : Int)
    (hn : pyint r.entrez_id = some n)
    (hi : alookup st.interaction_set (r.mirna_name, toString n) = none) :
    popStep emap st r = Except.ok
      { species_set := (resolveTarget emap (resolveMirna st r).2 r (toString n)).2.species_set
      , name_mirna := (resolveTarget emap (resolveMirna st r).2 r (toString n)).2.name_mirna
      , target_set := (resolveTarget emap (resolveMirna st r).2 r (toString n)).2.target_set
      , interaction_set := ((r.mirna_name, toString n),
          { mirtarbase_id := r.mirtarbase_id, mirna := (resolveMirna st r).1,
            target := (resolveTarget emap (resolveMirna st r).2 r (toString n)).1 }) ::
          (resolveTarget emap (resolveMirna st r).2 r (toString n)).2.interaction_set
      , evidences := (resolveTarget emap (resolveMirna st r).2 r (toString n)).2.evidences ++
          [{ experiment := r.exp, support := r.sup_type, reference := r.pubmed,
             interaction := { mirtarbase_id := r.mirtarbase_id,
                              mirna := (resolveMirna st r).1,
                              target := (resolveTarget emap (resolveMirna st r).2 r (toString n)).1 } }] } := by
  simp only [popStep, hn, hi]

/-- Helper: one `populate` row step preserves the loop invariant, extending
the processed prefix by the row. -/
theorem popStep_inv (emap : List (String × HGNC)) (processed : List Row)
    (st st2 : PopState) (r : Row)
    (hinv : PopInv emap processed st) (h : popStep emap st r = Except.ok st2) :
    PopInv emap (processed ++ [r]) st2 := by
  obtain ⟨hB, hC, hD, hE, hF⟩ := hinv
  cases hn : pyint r.entrez_id with
  | none =>
    unfold popStep at h
    rw [hn] at h
    cases h
  | some n =>
    have hkey : rowKey r = some (r.mirna_name, toString n) := by
      unfold rowKey
      rw [hn]
      rfl
    cases hi : alookup st.interaction_set (r.mirna_name, toString n) with
    | some interaction =>
      rw [popStep_existing_key emap st r n interaction hn hi] at h
      injection h with h2
      subst h2
      have hmemI := alookup_some_mem _ _ _ hi
      obtain ⟨hIname, hIentrez, r0, hr0, hrid⟩ := hC _ hmemI
      have hkeyI : interactionKeyOf interaction = (r.mirna_name, toString n) := by
        unfold interactionKeyOf
        rw [hIname, hIentrez]
      have hpos : 0 < rowsWithKey processed (r.mirna_name, toString n) := by
        by_contra hneg
        have h0 := hB (r.mirna_name, toString n)
        rw [if_neg hneg] at h0
        have hln := (alookup_eq_none_iff_countP st.interaction_set
          (r.mirna_name, toString n)).mpr h0
        rw [hi] at hln
        cases hln
      refine ⟨?_, ?_, ?_, ?_, ?_⟩
      · intro k2
        show st.interaction_set.countP (fun p => decide (p.1 = k2)) =
          if 0 < rowsWithKey (processed ++ [r]) k2 then 1 else 0
        rw [rowsWithKey_append_single]
        by_cases hk2 : k2 = (r.mirna_name, toString n)
        · subst hk2
          rw [if_pos hkey, hB, if_pos hpos, if_pos (Nat.succ_pos _)]
        · have hne : ¬ rowKey r = some k2 := by
            rw [hkey]
            intro hcon
            injection hcon with hc
            exact hk2 hc.symm
          rw [if_neg hne, Nat.add_zero]
          exact hB k2
      · intro p hp
        have hp2 : p ∈ st.interaction_set := hp
        obtain ⟨h1, h2, r1, hr1, h3⟩ := hC p hp2
        exact ⟨h1, h2, r1, firstWithKey_append_of_some processed r r1 p.1 hr1, h3⟩
      · intro k2
        show (st.evidences ++
            [({ experiment := r.exp, support := r.sup_type, reference := r.pubmed,
                interaction := interaction } : Evidence)]).countP
            (fun e => decide (interactionKeyOf e.interaction = k2)) =
          rowsWithKey (processed ++ [r]) k2
        rw [List.countP_append, rowsWithKey_append_single, hD]
        congr 1
        simp only [List.countP_cons, List.countP_nil, Nat.zero_add, decide_eq_true_eq]
        rw [hkeyI]
        by_cases hk2 : k2 = (r.mirna_name, toString n)
        · subst hk2
          rw [if_pos rfl, if_pos hkey]
        · have hne : ¬ rowKey r = some k2 := by
            rw [hkey]
            intro hcon
            injection hcon with hc
            exact hk2 hc.symm
          rw [if_neg (fun hcon => hk2 hcon.symm), if_neg hne]
      · exact hE
      · exact hF
    | none =>
      rw [popStep_new_key emap st r n hn hi] at h
      injection h with h2
      subst h2
      obtain ⟨hMname, hMF, hMt, hMi, hMe⟩ := resolveMirna_spec st r hF
      have hE2 : ∀ p ∈ (resolveMirna st r).2.target_set,
          p.2.entrez_id = p.1 ∧ targetHgncOk emap p.2 := by
        rw [hMt]
        exact hE
      obtain ⟨hTentrez, hTok, hTE, hTn, hTi, hTe⟩ :=
        resolveTarget_spec emap (resolveMirna st r).2 r (toString n) hE2
      have hIs : (resolveTarget emap (resolveMirna st r).2 r (toString n)).2.interaction_set =
          st.interaction_set := by rw [hTi, hMi]
      have hEs : (resolveTarget emap (resolveMirna st r).2 r (toString n)).2.evidences =
          st.evidences := by rw [hTe, hMe]
      have hzero : rowsWithKey processed (r.mirna_name, toString n) = 0 := by
        have hc0 := (alookup_eq_none_iff_countP st.interaction_set
          (r.mirna_name, toString n)).mp hi
        have h0 := hB (r.mirna_name, toString n)
        rw [hc0] at h0
        by_contra hneg
        rw [if_pos (Nat.pos_of_ne_zero hneg)] at h0
        cases h0
      have hkeyI0 : interactionKeyOf
          { mirtarbase_id := r.mirtarbase_id, mirna := (resolveMirna st r).1,
            target := (resolveTarget emap (resolveMirna st r).2 r (toString n)).1 } =
          (r.mirna_name, toString n) := by
        unfold interactionKeyOf
        show ((resolveMirna st r).1.name,
          (resolveTarget emap (resolveMirna st r).2 r (toString n)).1.entrez_id) = _
        rw [hMname, hTentrez]
      refine ⟨?_, ?_, ?_, ?_, ?_⟩
      · intro k2
        show (((r.mirna_name, toString n),
            { mirtarbase_id := r.mirtarbase_id, mirna := (resolveMirna st r).1,
              target := (resolveTarget emap (resolveMirna st r).2 r (toString n)).1 }) ::
            (resolveTarget emap (resolveMirna st r).2 r (toString n)).2.interaction_set).countP
            (fun p => decide (p.1 = k2)) =
          if 0 < rowsWithKey (processed ++ [r]) k2 then 1 else 0
        rw [List.countP_cons, hIs, hB, rowsWithKey_append_single]
        simp only [decide_eq_true_eq]
        by_cases hk2 : k2 = (r.mirna_name, toString n)
        · subst hk2
          rw [hzero]
          simp [hkey]
        · have hne : ¬ rowKey r = some k2 := by
            rw [hkey]
            intro hcon
            injection hcon with hc
            exact hk2 hc.symm
          have hne2 : ¬ ((r.mirna_name, toString n),
              ({ mirtarbase_id := r.mirtarbase_id, mirna := (resolveMirna st r).1,
                 target := (resolveTarget emap (resolveMirna st r).2 r
                   (toString n)).1 } : Interaction)).1 = k2 :=
            fun hcon => hk2 hcon.symm
          rw [if_neg hne, if_neg hne2, Nat.add_zero, Nat.add_zero]
      · intro p hp
        rcases List.mem_cons.mp hp with heq | hmem
        · subst heq
          exact ⟨hMname, hTentrez, r,
            firstWithKey_append_new processed r _ hzero hkey, rfl⟩
        · have hmem2 : p ∈ st.interaction_set := by
            rw [← hIs]
            exact hmem
          obtain ⟨h1, h2, r1, hr1, h3⟩ := hC p hmem2
          exact ⟨h1, h2, r1, firstWithKey_append_of_some processed r r1 p.1 hr1, h3⟩
      · intro k2
        show ((resolveTarget emap (resolveMirna st r).2 r (toString n)).2.evidences ++
            [({ experiment := r.exp, support := r.sup_type, reference := r.pubmed,
                interaction := { mirtarbase_id := r.mirtarbase_id,
                                 mirna := (resolveMirna st r).1,
                                 target := (resolveTarget emap (resolveMirna st r).2 r
                                   (toString n)).1 } } : Evidence)]).countP
            (fun e => decide (interactionKeyOf e.interaction = k2)) =
          rowsWithKey (processed ++ [r]) k2
        rw [hEs, List.countP_append, rowsWithKey_append_single, hD]
        congr 1
        simp only [List.countP_cons, List.countP_nil, Nat.zero_add, decide_eq_true_eq]
        rw [hkeyI0]
        by_cases hk2 : k2 = (r.mirna_name, toString n)
        · subst hk2
          rw [if_pos rfl, if_pos hkey]
        · have hne : ¬ rowKey r = some k2 := by
            rw [hkey]
            intro hcon
            injection hcon with hc
            exact hk2 hc.symm
          rw [if_neg (fun hcon => hk2 hcon.symm), if_neg hne]
      · exact hTE
      · intro p hp
        have hp2 : p ∈ (resolveMirna st r).2.name_mirna := by
          rw [← hTn]
          exact hp
        exact hMF p hp2

/-- Helper: the invariant holds initially with no rows processed. -/
theorem popInv_init (emap : List (String × HGNC)) : PopInv emap [] initPopState := by
  refine ⟨?_, ?_, ?_, ?_, ?_⟩
  · intro k
    simp [initPopState, rowsWithKey]
  · intro p hp
    cases hp
  · intro k
    simp [initPopState, rowsWithKey]
  · intro p hp
    cases hp
  · intro p hp
    cases hp

/-- Helper: the whole row loop preserves the invariant. -/
theorem popFold_inv (emap : List (String × HGNC)) :
    ∀ (rows processed : List Row) (st st2 : PopState),
      PopInv emap processed st →
      rows.foldlM (popStep emap) st = Except.ok st2 →
      PopInv emap (processed ++ rows) st2 := by
  intro rows
  induction rows with
  | nil =>
    intro processed st st2 hinv h
    injection h with h2
    subst h2
    simpa using hinv
  | cons r rest ih =>
    intro processed st st2 hinv h
    rw [List.foldlM_cons] at h
    cases hstep : popStep emap st r with
    | error e =>
      rw [hstep] at h
      cases h
    | ok st1 =>
      rw [hstep] at h
      have h1 : rest.foldlM (popStep emap) st1 = Except.ok st2 := h
      have hinv1 := popStep_inv emap processed st st1 r hinv hstep
      have hres := ih (processed ++ [r]) st1 st2 hinv1 h1
      rw [List.append_assoc] at hres
      simpa using hres

/-- C1: in a successful `Manager.populate` run, every interaction key shared
by at least one row yields exactly one stored Interaction; that interaction's
`mirtarbase_id` is the interaction identifier of the first row establishing
the key, and the number of stored Evidence records attached to the key
equals the number of rows sharing it. -/
theorem populate_interaction_dedup (hgnc_models : List HGNC) (rows : List Row)
    (store : Store) (k : String × String)
    (hok : Manager.populate hgnc_models rows = Except.ok store)
    (hk : 0 < rowsWithKey rows k) :
    store.interactions.countP (fun i => decide (interactionKeyOf i = k)) = 1 ∧
    (∀ i ∈ store.interactions, interactionKeyOf i = k →
      ∃ r, firstWithKey rows k = some r ∧ i.mirtarbase_id = r.mirtarbase_id) ∧
    store.evidences.countP (fun e => decide (interactionKeyOf e.interaction = k)) =
      rowsWithKey rows k := by
  unfold Manager.populate at hok
  cases hrun : popRun hgnc_models rows with
  | error e =>
    rw [hrun] at hok
    cases hok
  | ok st =>
    rw [hrun] at hok
    injection hok with h2
    subst h2
    have hinv := popFold_inv (_build_entrez_map hgnc_models) rows [] initPopState st
      (popInv_init _) (by unfold popRun at hrun; exact hrun)
    rw [List.nil_append] at hinv
    obtain ⟨hB, hC, hD, _, _⟩ := hinv
    refine ⟨?_, ?_, ?_⟩
    · show (st.interaction_set.map Prod.snd).countP
        (fun i => decide (interactionKeyOf i = k)) = 1
      rw [List.countP_map]
      have hag : st.interaction_set.countP
          ((fun i => decide (interactionKeyOf i = k)) ∘ Prod.snd) =
          st.interaction_set.countP (fun p => decide (p.1 = k)) := by
        apply List.countP_congr
        intro p hp
        obtain ⟨h1, h2, _⟩ := hC p hp
        simp only [Function.comp, decide_eq_true_eq]
        constructor
        · intro hkeq
          rw [← hkeq]
          unfold interactionKeyOf
          rw [h1, h2]
        · intro hpk
          unfold interactionKeyOf
          rw [h1, h2, hpk]
      rw [hag, hB k, if_pos hk]
    · intro i hi hik
      have hi2 : i ∈ st.interaction_set.map Prod.snd := hi
      rcases List.mem_map.mp hi2 with ⟨p, hp, hpi⟩
      obtain ⟨h1, h2, r1, hr1, h3⟩ := hC p hp
      have hpk : p.1 = k := by
        rw [← hik, ← hpi]
        unfold interactionKeyOf
        rw [h1, h2]
      rw [hpk] at hr1
      exact ⟨r1, hr1, by rw [← hpi]; exact h3⟩
    · show st.evidences.countP (fun e => decide (interactionKeyOf e.interaction = k)) =
        rowsWithKey rows k
      exact hD k

/-- C1 witness: two concrete rows sharing one interaction key, ingested
concretely: one interaction, whose identifier is the first row's, and two
evidences. -/
theorem populate_interaction_dedup_witness :
    ((Manager.populate [exHgnc]
        [exRow, { exRow with mirtarbase_id := "MIRT999999" }]).toOption.getD
        emptyStore).interactions.countP
      (fun i => decide (interactionKeyOf i = ("mmu-miR-124-3p", "7852"))) = 1 ∧
    (∀ i ∈ ((Manager.populate [exHgnc]
        [exRow, { exRow with mirtarbase_id := "MIRT999999" }]).toOption.getD
        emptyStore).interactions,
      interactionKeyOf i = ("mmu-miR-124-3p", "7852") →
      ∃ r, firstWithKey [exRow, { exRow with mirtarbase_id := "MIRT999999" }]
          ("mmu-miR-124-3p", "7852") = some r ∧
        i.mirtarbase_id = r.mirtarbase_id) ∧
    ((Manager.populate [exHgnc]
        [exRow, { exRow with mirtarbase_id := "MIRT999999" }]).toOption.getD
        emptyStore).evidences.countP
      (fun e => decide (interactionKeyOf e.interaction = ("mmu-miR-124-3p", "7852"))) =
      rowsWithKey [exRow, { exRow with mirtarbase_id := "MIRT999999" }]
        ("mmu-miR-124-3p", "7852") :=
  populate_interaction_dedup [exHgnc]
    [exRow, { exRow with mirtarbase_id := "MIRT999999" }]
    ((Manager.populate [exHgnc]
      [exRow, { exRow with mirtarbase_id := "MIRT999999" }]).toOption.getD emptyStore)
    ("mmu-miR-124-3p", "7852") (by rfl) (by decide)

/-- C6: every target created by a successful `Manager.populate` run has both
HGNC fields populated from the cross-reference map entry when the map built
from the registry contains its gene id, and both absent otherwise; no target
ever has exactly one of the two fields set. -/
theorem populate_target_hgnc_pairing (hgnc_models : List HGNC) (rows : List Row)
    (store : Store)
    (hok : Manager.populate hgnc_models rows = Except.ok store) :
    ∀ t ∈ store.targets,
      ((∃ g, alookup (_build_entrez_map hgnc_models) t.entrez_id = some g ∧
          t.hgnc_symbol = some g.symbol ∧ t.hgnc_id = some (toString g.identifier)) ∨
        (alookup (_build_entrez_map hgnc_models) t.entrez_id = none ∧
          t.hgnc_symbol = none ∧ t.hgnc_id = none)) ∧
      (t.hgnc_symbol.isSome ↔ t.hgnc_id.isSome) := by
  unfold Manager.populate at hok
  cases hrun : popRun hgnc_models rows with
  | error e =>
    rw [hrun] at hok
    cases hok
  | ok st =>
    rw [hrun] at hok
    injection hok with h2
    subst h2
    have hinv := popFold_inv (_build_entrez_map hgnc_models) rows [] initPopState st
      (popInv_init _) (by unfold popRun at hrun; exact hrun)
    rw [List.nil_append] at hinv
    obtain ⟨_, _, _, hE, _⟩ := hinv
    intro t ht
    have ht2 : t ∈ st.target_set.map Prod.snd := ht
    rcases List.mem_map.mp ht2 with ⟨p, hp, hpt⟩
    have hTok := (hE p hp).2
    rw [hpt] at hTok
    cases ha : alookup (_build_entrez_map hgnc_models) t.entrez_id with
    | some g =>
      have hs := hTok.1 g ha
      refine ⟨Or.inl ⟨g, rfl, hs.1, hs.2⟩, ?_⟩
      rw [hs.1, hs.2]
      simp
    | none =>
      have hs := hTok.2 ha
      refine ⟨Or.inr ⟨rfl, hs.1, hs.2⟩, ?_⟩
      rw [hs.1, hs.2]

/-- C6 witness: the single-row concrete run creates exactly the example
target, which carries both HGNC fields from the registry entry. -/
theorem populate_target_hgnc_pairing_witness :
    ((∃ g, alookup (_build_entrez_map [exHgnc]) exTarget.entrez_id = some g ∧
        exTarget.hgnc_symbol = some g.symbol ∧
        exTarget.hgnc_id = some (toString g.identifier)) ∨
      (alookup (_build_entrez_map [exHgnc]) exTarget.entrez_id = none ∧
        exTarget.hgnc_symbol = none ∧ exTarget.hgnc_id = none)) ∧
    (exTarget.hgnc_symbol.isSome ↔ exTarget.hgnc_id.isSome) :=
  populate_target_hgnc_pairing [exHgnc] [exRow]
    ((Manager.populate [exHgnc] [exRow]).toOption.getD emptyStore) (by rfl)
    exTarget (by decide)

/-- Helper: under the single-evidence discipline, the module-level
per-interaction emission and the Manager per-evidence emission build the
same graph. -/
theorem fold_one_evidence_agree (store : Store) (node : GNode) (l : List Interaction)
    (hone : ∀ i ∈ l, ∃ ev, evidencesOf store i = [ev]) (g : BELGraph) :
    l.foldl (fun g1 i =>
      match Enrich.interactionEvidence store i with
      | some ev => g1.add_qualified_edge
          { u := i.mirna.serialize_to_bel, v := node, relation := DIRECTLY_DECREASES,
            evidence := ev.support, citation := toString ev.reference,
            annotations := [("Experiment", ev.experiment), ("SupportType", ev.support)] }
      | none => g1) g =
    l.foldl (fun g1 i => (evidencesOf store i).foldl
      (fun g2 ev => g2.add_qualified_edge (Manager.mtiEdge node i ev)) g1) g := by
  induction l generalizing g with
  | nil => rfl
  | cons i rest ih =>
    simp only [List.foldl_cons]
    obtain ⟨ev, hev⟩ := hone i (List.mem_cons_self i rest)
    rw [show Enrich.interactionEvidence store i = some ev from by
      unfold Enrich.interactionEvidence
      rw [hev]
      rfl]
    rw [hev]
    exact ih (fun j hj => hone j (List.mem_cons_of_mem i hj)) _

/-- Helper: per-node agreement lifts through the node loop of the two
enrichment implementations. -/
theorem foldlM_congr_nodes (ve : List String) (store : Store) :
    ∀ (nodes : List (GNode × NodeData)) (g : BELGraph),
      (∀ p ∈ nodes, ∀ g1, Enrich.enrichRnaNodeModule store g1 p.1 p.2 =
        Manager.enrichRnaNode ve store g1 p.1 p.2) →
      nodes.foldlM (fun g1 nd => Enrich.enrichRnaNodeModule store g1 nd.1 nd.2) g =
      nodes.foldlM (fun g1 nd => Manager.enrichRnaNode ve store g1 nd.1 nd.2) g := by
  intro nodes
  induction nodes with
  | nil =>
    intro g hag
    rfl
  | cons nd rest ih =>
    intro g hag
    rw [List.foldlM_cons, List.foldlM_cons]
    rw [hag nd (List.mem_cons_self nd rest) g]
    cases hstep : Manager.enrichRnaNode ve store g nd.1 nd.2 with
    | error e => rfl
    | ok g1 =>
      show rest.foldlM (fun g2 nd2 => Enrich.enrichRnaNodeModule store g2 nd2.1 nd2.2) g1 =
        rest.foldlM (fun g2 nd2 => Manager.enrichRnaNode ve store g2 nd2.1 nd2.2) g1
      exact ih g1 (fun p hp => hag p (List.mem_cons_of_mem nd hp))

/-- Helper: per-node agreement of the two enrichment implementations on RNA
nodes of exact authority `HGNC` carrying a nonempty identifier that resolves
to a target all of whose interactions own exactly one evidence. -/
theorem enrich_node_agree (ve : List String) (store : Store) (g : BELGraph)
    (node : GNode) (data : NodeData)
    (hd : data.function = RNA →
      data.ns = some "HGNC" ∧
      ∃ s t, data.identifier = some s ∧ s ≠ "" ∧
        Manager.query_target_by_hgnc_identifier store s = some t ∧
        ∀ i ∈ interactionsOf store t, ∃ ev, evidencesOf store i = [ev]) :
    Enrich.enrichRnaNodeModule store g node data =
      Manager.enrichRnaNode ve store g node data := by
  by_cases hfn : data.function = RNA
  · obtain ⟨hns, s, t, hid, hsne, hq, hone⟩ := hd hfn
    have hlow : ("HGNC" : String).lower = "hgnc" := by decide
    have htr : truthy (some s) = true := truthy_some_of_ne s hsne
    have hgetD : (some s).getD "" = s := rfl
    have hM : Enrich.enrichRnaNodeModule store g node data =
        Except.ok ((interactionsOf store t).foldl (fun g1 i =>
          match Enrich.interactionEvidence store i with
          | some ev => g1.add_qualified_edge
              { u := i.mirna.serialize_to_bel, v := node, relation := DIRECTLY_DECREASES,
                evidence := ev.support, citation := toString ev.reference,
                annotations := [("Experiment", ev.experiment),
                                ("SupportType", ev.support)] }
          | none => g1) g) := by
      unfold Enrich.enrichRnaNodeModule
      rw [if_neg (fun hne => hne hfn), hns]
      simp [hid, hq]
    have hMan : Manager.enrichRnaNode ve store g node data =
        Except.ok (Manager.addTargetEdges store node t g) := by
      unfold Manager.enrichRnaNode Manager.rnaNodeTarget Manager._enrich_rna_handle_hgnc
      rw [if_neg (fun hne => hne hfn), hns]
      simp [hlow, hid, htr, hq]
    rw [hM, hMan]
    unfold Manager.addTargetEdges
    exact congrArg Except.ok (fold_one_evidence_agree store node (interactionsOf store t)
      hone g)
  · unfold Enrich.enrichRnaNodeModule Manager.enrichRnaNode Manager.rnaNodeTarget
    rw [if_pos hfn, if_pos hfn]

/-- C9 amended: the module-level `enrich_rnas` of `enrich.py` and
`Manager.enrich_rnas` are not equivalent in general (namespace case
sensitivity, presence versus truthiness tests, one edge per interaction
versus one per evidence, unsafe name access on unresolved nodes); they do
add the same edges on graphs whose RNA nodes all carry the exact namespace
string `HGNC` and a present nonempty identifier resolving to a stored
target, over stores in which every interaction of such a target owns exactly
one evidence. -/
theorem enrich_rnas_module_manager_agree (ve : List String) (store : Store)
    (g : BELGraph)
    (hnodes : ∀ p ∈ g.nodes, p.2.function = RNA →
      p.2.ns = some "HGNC" ∧
      ∃ s t, p.2.identifier = some s ∧ s ≠ "" ∧
        Manager.query_target_by_hgnc_identifier store s = some t ∧
        ∀ i ∈ interactionsOf store t, ∃ ev, evidencesOf store i = [ev]) :
    Enrich.enrich_rnas store g = Manager.enrich_rnas ve store g := by
  unfold Enrich.enrich_rnas Manager.enrich_rnas
  apply foldlM_congr_nodes
  intro p hp g1
  exact enrich_node_agree ve store g1 p.1 p.2 (fun hfn => hnodes p hp hfn)

/-- C9 amended witness: on the concrete exact-`HGNC` graph and the example
store the two implementations produce identical results. -/
theorem enrich_rnas_module_manager_agree_witness :
    Enrich.enrich_rnas exStore exGraphHgnc =
      Manager.enrich_rnas exVe exStore exGraphHgnc :=
  enrich_rnas_module_manager_agree exVe exStore exGraphHgnc (by
    intro p hp hfn
    have hp2 : p = (GNode.node 0,
        { function := RNA, ns := some "HGNC", identifier := some "2561",
          name := some "CXCR4" }) := by
      simpa [exGraphHgnc] using hp
    subst hp2
    refine ⟨rfl, "2561", exTarget, rfl, by decide, by rfl, ?_⟩
    intro i hi
    have hlist : interactionsOf exStore exTarget = [exInteraction] := by rfl
    rw [hlist] at hi
    have hi2 : i = exInteraction := by simpa using hi
    subst hi2
    exact ⟨exEvidence, by rfl⟩)
